import Mathlib

/-!
Verification development for the field-orders application.

The definitions below are a shallow embedding of the client-side order
logic (src/components/Orders.tsx, src/components/AdminBoard.tsx, the
Products component) and of the row-level-security predicates
(policies.sql).  JavaScript numbers are modelled as rationals (ℚ); the
claims under study concern exact arithmetic identities, so no rounding
model is needed.  Nullable fields are modelled as `Option`.
-/

namespace FieldOrders

/-- Three-level unit-of-measure hierarchy: level 1 (e.g. CTN), level 2
(e.g. BOX), level 3 (piece). -/
inductive Uom where
  | u1 | u2 | u3
deriving DecidableEq

/-- Product record as loaded by Orders.tsx: price is quoted per UOM1,
conversion factors are nullable columns. Fields that no claim touches
(sku, name, uom names, active flag) are omitted. -/
structure Product where
  price : ℚ
  conv1_to_2 : Option ℚ
  conv2_to_3 : Option ℚ
deriving DecidableEq

/-- JavaScript `x || 1` on a nullable number: null and 0 are falsy and
yield 1 (NaN is also falsy but is not representable in ℚ). -/
def jsOr1 (x : Option ℚ) : ℚ :=
  match x with
  | none => 1
  | some v => if v = 0 then 1 else v

/-- Effective first conversion factor: `Math.max(1, product.conv1_to_2 || 1)`. -/
def effC12 (p : Product) : ℚ := max 1 (jsOr1 p.conv1_to_2)

/-- Effective second conversion factor: `Math.max(1, product.conv2_to_3 || 1)`. -/
def effC23 (p : Product) : ℚ := max 1 (jsOr1 p.conv2_to_3)

/-- Model of `unitsPer` from Orders.tsx: pieces contained in one unit of the given
level (1 for UOM3, c23 for UOM2, c12*c23 for UOM1). -/
def unitsPer (p : Product) (uom : Uom) : ℚ :=
  match uom with
  | Uom.u3 => 1
  | Uom.u2 => effC23 p
  | Uom.u1 => effC12 p * effC23 p

/-- Model of `pricePerPCSFromUOM1` from Orders.tsx: divides the UOM1 price by the
clamped factor product, falling back to the raw price when the
denominator is not positive. -/
def pricePerPCSFromUOM1 (p : Product) : ℚ :=
  let c12 := effC12 p
  let c23 := effC23 p
  let perPCS := c12 * c23
  let priceUOM1 := p.price
  if 0 < perPCS then priceUOM1 / perPCS else priceUOM1

/-- Model of `pricePCS` from the Products component: same computation word for
word (the `Number(...)` coercions are identities on already-numeric
fields; a null price coerces to 0 and is modelled as the value 0). -/
def pricePCS (p : Product) : ℚ :=
  let c12 := max 1 (jsOr1 p.conv1_to_2)
  let c23 := max 1 (jsOr1 p.conv2_to_3)
  let total := c12 * c23
  let perPCS := if 0 < total then p.price / total else p.price
  perPCS

/-- A line of the order being built (Orders.tsx `OrderRow`). -/
structure OrderRow where
  id : String
  product_id : Option Nat
  uom : Uom
  qty : ℚ
  price : ℚ
deriving DecidableEq

/-- JavaScript falsiness of a nullable id (`!r.product_id`): null and the
number 0 are falsy. -/
def jsFalsyId (x : Option Nat) : Bool :=
  match x with
  | none => true
  | some n => n = 0

/-- Model of `changeUom` from Orders.tsx, action on a single row of the map.  The
source returns the row unchanged when the id does not match or the
product id is falsy; when the product lookup itself misses, the source
would throw on property access (unreachable through the UI, where rows
are only created from loaded products) — the model returns the row
unchanged there, and every theorem about this function assumes a
resolved product. -/
def changeUomRow (byId : Nat → Option Product) (rowId : String) (u : Uom)
    (r : OrderRow) : OrderRow :=
  if r.id ≠ rowId ∨ jsFalsyId r.product_id then r
  else
    match r.product_id with
    | none => r
    | some pid =>
      match byId pid with
      | none => r
      | some p =>
        let pricePerPCS := pricePerPCSFromUOM1 p
        let currentUnits := unitsPer p r.uom
        let baseQty := r.qty * currentUnits
        let newUnits := unitsPer p u
        let newQty := baseQty / newUnits
        { r with uom := u, qty := newQty, price := pricePerPCS * newUnits }

/-- Model of `changeUom` from Orders.tsx: maps the row transform over the list. -/
def changeUom (byId : Nat → Option Product) (rowId : String) (u : Uom)
    (rows : List OrderRow) : List OrderRow :=
  rows.map (changeUomRow byId rowId u)

/-- Model of `subtotal` from Orders.tsx: the reduce of qty times price over the rows, starting from 0. -/
def subtotal (rows : List OrderRow) : ℚ :=
  rows.foldl (fun s r => s + r.qty * r.price) 0

/-- Line total of a row, as displayed and summed. -/
def lineTotal (r : OrderRow) : ℚ := r.qty * r.price

/-- The stored unit price of a row agrees with the per-piece price times
the units of its current level.  Rows created by `addProductToOrder`
satisfy this, and `changeUomRow` re-establishes it. -/
def rowConsistent (byId : Nat → Option Product) (r : OrderRow) : Prop :=
  ∀ pid p, r.product_id = some pid → byId pid = some p →
    r.price = pricePerPCSFromUOM1 p * unitsPer p r.uom

/-- Order status values (AdminBoard.tsx `STATUSES`). -/
inductive Status where
  | new | shipped | cancelled
deriving DecidableEq

/-- Order header insert payload built by `saveOrder` (Orders.tsx).
`payment_terms` is `paymentTerms || undefined`: the empty selection is
modelled as `none`. -/
structure OrderInsert where
  customer_id : Nat
  created_by : String
  status : Status
  subtotal : ℚ
  discount : ℚ
  tax : ℚ
  total : ℚ
  notes : String
  payment_terms : Option String
deriving DecidableEq

/-- Line-item insert payload built by `saveOrder` (Orders.tsx). -/
structure ItemInsert where
  order_id : Nat
  product_id : Nat
  qty : ℚ
  price : ℚ
  uom_level : Uom
  qty_base : ℚ
deriving DecidableEq

/-- One item payload: `{ order_id, product_id, qty, price, uom_level, qty_base }`.
`saveOrder` only builds these after checking every row has a truthy
product id, so the `none` branch of the outer match is unreachable; on a
missing product lookup the source would throw on property access
(unreachable through the UI), modelled by a unit factor. -/
def itemOf (byId : Nat → Option Product) (orderId : Nat) (r : OrderRow) :
    ItemInsert :=
  { order_id := orderId,
    product_id := r.product_id.getD 0,
    qty := r.qty,
    price := r.price,
    uom_level := r.uom,
    qty_base := r.qty * (match r.product_id with
      | some pid =>
        match byId pid with
        | some p => unitsPer p r.uom
        | none => 1
      | none => 1) }

/-- Backend operations attempted by `saveOrder`, in order.  The order
insert carries the id the backend assigned (`none` when the insert
errored); the item insert carries whether it succeeded. -/
inductive Op where
  | insertOrder (result : Option Nat) (o : OrderInsert)
  | insertItems (ok : Bool) (items : List ItemInsert)
  | deleteOrder (orderId : Nat)
  | alert (msg : String)
deriving DecidableEq

/-- Outcome of one `saveOrder` call: the attempted backend operations,
the component state afterwards (rows and selected customer), and the
saved header/items when the save went through. -/
structure SaveResult where
  trace : List Op
  rowsAfter : List OrderRow
  customerAfter : Option Nat
  saved : Option (OrderInsert × List ItemInsert)
deriving DecidableEq

/-- Model of `saveOrder` from Orders.tsx.  The guards mirror the source:
`!customerId` (empty selection or id 0 is falsy), `rows.length === 0`,
`rows.some(r => !r.product_id)`, then a missing auth uid.  The network
outcomes — the id assigned by the order insert (`none` on error) and the
success of the item insert — are inputs to the model.  On item-insert
failure the source deletes the just-created header inside a try/catch
(best-effort); the model records the delete in the trace. -/
def saveOrder (byId : Nat → Option Product) (customerId : Option Nat)
    (rows : List OrderRow) (notes : String) (paymentTerms : Option String)
    (uid : Option String) (orderInsertResult : Option Nat)
    (itemsInsertOk : Bool) : SaveResult :=
  if jsFalsyId customerId then
    { trace := [Op.alert "Select a customer"], rowsAfter := rows,
      customerAfter := customerId, saved := none }
  else if rows.length = 0 then
    { trace := [Op.alert "Add at least one item"], rowsAfter := rows,
      customerAfter := customerId, saved := none }
  else if rows.any (fun r => jsFalsyId r.product_id) then
    { trace := [Op.alert "All rows must have a product"], rowsAfter := rows,
      customerAfter := customerId, saved := none }
  else
    match uid with
    | none =>
      { trace := [Op.alert "Not signed in"], rowsAfter := rows,
        customerAfter := customerId, saved := none }
    | some u =>
      let header : OrderInsert :=
        { customer_id := customerId.getD 0, created_by := u,
          status := Status.new, subtotal := subtotal rows, discount := 0,
          tax := 0, total := subtotal rows, notes := notes,
          payment_terms := paymentTerms }
      match orderInsertResult with
      | none =>
        { trace := [Op.insertOrder none header, Op.alert "insert order failed"],
          rowsAfter := rows, customerAfter := customerId, saved := none }
      | some orderId =>
        let items := rows.map (itemOf byId orderId)
        if itemsInsertOk then
          { trace := [Op.insertOrder (some orderId) header,
                      Op.insertItems true items],
            rowsAfter := [], customerAfter := none,
            saved := some (header, items) }
        else
          { trace := [Op.insertOrder (some orderId) header,
                      Op.insertItems false items,
                      Op.deleteOrder orderId,
                      Op.alert "insert items failed"],
            rowsAfter := rows, customerAfter := customerId, saved := none }

/-- Sum of `qty * price` over item-insert payloads. -/
def sumItems (items : List ItemInsert) : ℚ :=
  items.foldl (fun s it => s + it.qty * it.price) 0

/-- Order-header ids still present after running the trace: an order
insert that returned an id creates one, a delete removes it. -/
def liveHeaders (trace : List Op) : List Nat :=
  trace.foldl
    (fun acc op =>
      match op with
      | Op.insertOrder (some oid) _ => acc ++ [oid]
      | Op.deleteOrder oid => acc.filter (fun x => decide (x ≠ oid))
      | _ => acc)
    []

/-- Order ids whose line items were successfully inserted by the trace. -/
def savedItemOrderIds (trace : List Op) : List Nat :=
  trace.foldl
    (fun acc op =>
      match op with
      | Op.insertItems true items => acc ++ items.map ItemInsert.order_id
      | _ => acc)
    []

/-- Item row as held in the admin detail modal (AdminBoard.tsx); only
the fields `saveEdits` touches are kept, plus the stale stored line
total. -/
structure DetailItem where
  id : Nat
  qty : ℚ
  price : ℚ
  line_total : ℚ
deriving DecidableEq

/-- Upsert payload row written by `saveEdits`: `{ id, qty, price }`. -/
structure EditItem where
  id : Nat
  qty : ℚ
  price : ℚ
deriving DecidableEq

/-- Header update payload written by `saveEdits`: `{ subtotal, total }`. -/
structure OrdersUpdate where
  subtotal : ℚ
  total : ℚ
deriving DecidableEq

/-- Upsert payload of `saveEdits`: one row of id, qty and price per modal item. -/
def saveEditsUpserts (items : List DetailItem) : List EditItem :=
  items.map (fun it => { id := it.id, qty := it.qty, price := it.price })

/-- Header update of `saveEdits`: subtotal is the reduce of `qty * price`
over the modal items, and total is set to that subtotal. -/
def saveEditsOrderUpdate (items : List DetailItem) : OrdersUpdate :=
  let s := items.foldl (fun acc it => acc + it.qty * it.price) 0
  { subtotal := s, total := s }

/-- Sum of `qty * price` over upsert rows. -/
def sumEditItems (items : List EditItem) : ℚ :=
  items.foldl (fun s it => s + it.qty * it.price) 0

/-- A status-history insert payload. -/
structure HistRow where
  order_id : Nat
  from_status : Option Status
  to_status : Status
deriving DecidableEq

/-- Minimal database state for the admin status operations: order
statuses by id, and the append-only status history. -/
structure StatusDB where
  orders : List (Nat × Status)
  hist : List HistRow
deriving DecidableEq

/-- Status of an order, as read by `select status ... single()`. -/
def statusOf (db : StatusDB) (id : Nat) : Option Status :=
  (db.orders.find? (fun o => decide (o.1 = id))).map (fun o => o.2)

/-- Model of the update setting the status of every order whose id is in ids. -/
def setStatusIn (orders : List (Nat × Status)) (ids : List Nat)
    (toSt : Status) : List (Nat × Status) :=
  orders.map (fun o => if o.1 ∈ ids then (o.1, toSt) else o)

/-- Model of `changeStatus` from AdminBoard.tsx: reads the current status with
`.single()` (alert and stop when the read errors, modelled as a missing
order), updates the header, then inserts one history row with
`from_status` the status just read and `to_status` the target. -/
def changeStatus (db : StatusDB) (id : Nat) (toSt : Status) : StatusDB :=
  match statusOf db id with
  | none => db
  | some fromSt =>
    { orders := setStatusIn db.orders [id] toSt,
      hist := db.hist ++
        [{ order_id := id, from_status := some fromSt, to_status := toSt }] }

/-- Model of `cancelOrder` from AdminBoard.tsx: reads the current status ignoring
errors (`current?.status || null`), sets status to cancelled, inserts a
history row with the status read (possibly null) as `from_status`. -/
def cancelOrder (db : StatusDB) (id : Nat) : StatusDB :=
  let fromSt := statusOf db id
  { orders := setStatusIn db.orders [id] Status.cancelled,
    hist := db.hist ++
      [{ order_id := id, from_status := fromSt,
         to_status := Status.cancelled }] }

/-- Model of `bulkMove` from AdminBoard.tsx: alerts and stops on an empty
selection (the confirm dialog is modelled as accepted); otherwise one
update over all selected ids, then a history insert whose payload sets
`from_status` to the literal null for every row:
`selectedIds.map(id => ({ order_id: id, from_status: null, to_status: to, ... }))`. -/
def bulkMove (db : StatusDB) (ids : List Nat) (toSt : Status) : StatusDB :=
  if ids.isEmpty then db
  else
    { orders := setStatusIn db.orders ids toSt,
      hist := db.hist ++
        ids.map (fun i =>
          { order_id := i, from_status := none, to_status := toSt }) }

/-- Roles stored in profiles. -/
inductive Role where
  | sales | admin
deriving DecidableEq

/-- A row of `public.profiles`, restricted to the columns the order
policies consult. -/
structure ProfileRow where
  id : String
  role : Role
deriving DecidableEq

/-- An order as seen by the RLS predicates: `created_by` is a nullable
uuid column; SQL `created_by = auth.uid()` is false when it is null. -/
structure OrderAuthRow where
  created_by : Option String
deriving DecidableEq

/-- Model of the admin-profile existence subquery used by the policies: some profile row of the caller has role admin. -/
def isAdminUid (profiles : List ProfileRow) (uid : String) : Bool :=
  profiles.any (fun p => decide (p.id = uid ∧ p.role = Role.admin))

/-- Effective select permission on `public.orders`: the union of the
policies "orders: sales read own" (`created_by = auth.uid()`) and
"orders: admin read all" (admin profile exists for the caller). -/
def ordersSelectAllowed (profiles : List ProfileRow) (uid : String)
    (o : OrderAuthRow) : Bool :=
  decide (o.created_by = some uid) || isAdminUid profiles uid

-- Concrete inputs used by witnesses and the counterexample.

/-- Product of the worked example in the spec: UOM1 price 60000, c12 = 6,
c23 = 6. -/
def exampleProduct : Product :=
  { price := 60000, conv1_to_2 := some 6, conv2_to_3 := some 6 }

/-- Small product for row-level witnesses: price 36 per UOM1, c12 = 2,
c23 = 3, so the piece price is 6. -/
def smallProduct : Product :=
  { price := 36, conv1_to_2 := some 2, conv2_to_3 := some 3 }

/-- Product lookup holding only `smallProduct` under id 7. -/
def smallById : Nat → Option Product :=
  fun n => if n = 7 then some smallProduct else none

/-- One consistent piece-level row for product 7: 5 pieces at the piece
price 6. -/
def smallRow : OrderRow :=
  { id := "a", product_id := some 7, uom := Uom.u3, qty := 5, price := 6 }

/-- Database with a single order (id 1) in status new and no history. -/
def exampleStatusDB : StatusDB :=
  { orders := [(1, Status.new)], hist := [] }

/-- True when the trace consists of alerts only — no backend write of
any kind was attempted. -/
def alertsOnly (trace : List Op) : Bool :=
  trace.all (fun op =>
    match op with
    | Op.alert _ => true
    | _ => false)

/-- Header payload produced by the witness save: customer 1, creator u,
one line of 5 pieces at price 6. -/
def savedHeader : OrderInsert :=
  { customer_id := 1, created_by := "u", status := Status.new, subtotal := 30,
    discount := 0, tax := 0, total := 30, notes := "", payment_terms := none }

/-- Item payload produced by the witness save under assigned order id 5. -/
def savedItems : List ItemInsert :=
  [{ order_id := 5, product_id := 7, qty := 5, price := 6,
     uom_level := Uom.u3, qty_base := 5 }]

/-- Admin-editor item used by the saveEdits witness. -/
def editedDetail : List DetailItem :=
  [{ id := 1, qty := 2, price := 3, line_total := 99 }]

-- Basic facts about the clamped factors.

lemma one_le_effC12 (p : Product) : 1 ≤ effC12 p := le_max_left _ _

lemma one_le_effC23 (p : Product) : 1 ≤ effC23 p := le_max_left _ _

lemma one_le_unitsPer (p : Product) (uom : Uom) : 1 ≤ unitsPer p uom := by
  cases uom with
  | u3 => exact le_refl 1
  | u2 => exact one_le_effC23 p
  | u1 =>
    have h1 := one_le_effC12 p
    have h2 := one_le_effC23 p
    show (1 : ℚ) ≤ effC12 p * effC23 p
    nlinarith [h1, h2]

lemma unitsPer_pos (p : Product) (uom : Uom) : 0 < unitsPer p uom :=
  lt_of_lt_of_le one_pos (one_le_unitsPer p uom)

lemma unitsPer_ne_zero (p : Product) (uom : Uom) : unitsPer p uom ≠ 0 :=
  ne_of_gt (unitsPer_pos p uom)

lemma perPCS_pos (p : Product) : 0 < effC12 p * effC23 p := by
  have h1 := one_le_effC12 p
  have h2 := one_le_effC23 p
  nlinarith [h1, h2]

lemma pricePerPCSFromUOM1_eq_div (p : Product) :
    pricePerPCSFromUOM1 p = p.price / (effC12 p * effC23 p) := by
  unfold pricePerPCSFromUOM1
  simp [if_pos (perPCS_pos p)]

lemma pricePCS_eq (p : Product) : pricePCS p = pricePerPCSFromUOM1 p := rfl

lemma effC12_of_some (p : Product) (c : ℚ) (h : p.conv1_to_2 = some c)
    (hc : 1 ≤ c) : effC12 p = c := by
  have hne : c ≠ 0 := ne_of_gt (lt_of_lt_of_le one_pos hc)
  unfold effC12 jsOr1
  rw [h]
  simp [hne, max_eq_right hc]

lemma effC23_of_some (p : Product) (c : ℚ) (h : p.conv2_to_3 = some c)
    (hc : 1 ≤ c) : effC23 p = c := by
  have hne : c ≠ 0 := ne_of_gt (lt_of_lt_of_le one_pos hc)
  unfold effC23 jsOr1
  rw [h]
  simp [hne, max_eq_right hc]

lemma subtotal_shift (rows : List OrderRow) (a : ℚ) :
    rows.foldl (fun s r => s + r.qty * r.price) a = a + subtotal rows := by
  induction rows generalizing a with
  | nil => simp [subtotal]
  | cons r rs ih =>
    show List.foldl (fun s x => s + x.qty * x.price) (a + r.qty * r.price) rs
        = a + subtotal (r :: rs)
    rw [ih]
    have h : subtotal (r :: rs) = 0 + r.qty * r.price + subtotal rs := by
      show List.foldl (fun s x => s + x.qty * x.price) (0 + r.qty * r.price) rs
          = 0 + r.qty * r.price + subtotal rs
      rw [ih]
    rw [h]
    ring

lemma subtotal_cons (r : OrderRow) (rs : List OrderRow) :
    subtotal (r :: rs) = r.qty * r.price + subtotal rs := by
  show List.foldl (fun s x => s + x.qty * x.price) (0 + r.qty * r.price) rs
      = r.qty * r.price + subtotal rs
  rw [subtotal_shift]
  ring

lemma subtotal_map (rows : List OrderRow) (f : OrderRow → OrderRow)
    (hf : ∀ r ∈ rows, lineTotal (f r) = lineTotal r) :
    subtotal (rows.map f) = subtotal rows := by
  induction rows with
  | nil => rfl
  | cons r rs ih =>
    rw [List.map_cons, subtotal_cons, subtotal_cons,
      ih (fun x hx => hf x (List.mem_cons_of_mem r hx))]
    have h := hf r (List.mem_cons_self r rs)
    unfold lineTotal at h
    rw [h]

lemma lineTotal_changeUomRow (byId : Nat → Option Product) (rowId : String)
    (u : Uom) (r : OrderRow) (hcons : rowConsistent byId r) :
    lineTotal (changeUomRow byId rowId u r) = lineTotal r := by
  unfold changeUomRow
  by_cases hguard : r.id ≠ rowId ∨ jsFalsyId r.product_id = true
  · rw [if_pos hguard]
  · rw [if_neg hguard]
    split
    next => rfl
    next pid heq =>
      split
      next => rfl
      next p heqb =>
        have hcr := hcons pid p heq heqb
        have hne := unitsPer_ne_zero p u
        simp only [lineTotal]
        rw [hcr]
        field_simp
        ring

lemma sumItems_map_itemOf (byId : Nat → Option Product) (oid : Nat)
    (rows : List OrderRow) :
    sumItems (rows.map (itemOf byId oid)) = subtotal rows := by
  unfold sumItems subtotal
  rw [List.foldl_map]
  rfl

lemma sumEditItems_upserts (ditems : List DetailItem) :
    sumEditItems (saveEditsUpserts ditems)
      = ditems.foldl (fun s it => s + it.qty * it.price) 0 := by
  unfold sumEditItems saveEditsUpserts
  rw [List.foldl_map]

/-- Shape of the saved header and items whenever `saveOrder` reports a
successful save. -/
lemma saveOrder_saved_eq (byId : Nat → Option Product)
    (customerId : Option Nat) (rows : List OrderRow) (notes : String)
    (paymentTerms : Option String) (uid : Option String)
    (orderInsertResult : Option Nat) (itemsInsertOk : Bool)
    (hd : OrderInsert) (items : List ItemInsert)
    (h : (saveOrder byId customerId rows notes paymentTerms uid
            orderInsertResult itemsInsertOk).saved = some (hd, items)) :
    hd = { customer_id := customerId.getD 0, created_by := uid.getD "",
           status := Status.new, subtotal := subtotal rows, discount := 0,
           tax := 0, total := subtotal rows, notes := notes,
           payment_terms := paymentTerms } ∧
    ∃ oid, orderInsertResult = some oid ∧
      items = rows.map (itemOf byId oid) := by
  unfold saveOrder at h
  split_ifs at h <;>
    cases uid with
    | none => simp at h
    | some u =>
      cases orderInsertResult with
      | none => simp at h
      | some oid =>
        simp only [Option.some.injEq, Prod.mk.injEq] at h
        first
        | exact ⟨h.1.symm, oid, rfl, h.2.symm⟩
        | exact absurd h (by simp)

/-- C1: for a product with conversion factors c12, c23 ≥ 1 and top-level
price P, the per-piece price is P / (c12*c23), the UOM2 price is the
per-piece price times c23, the UOM1 price is the per-piece price times
c12*c23, which recovers P, and the Products-component pricePCS computes
the same per-piece price. -/
theorem C1_uom_price_roundtrip (p : Product) (c12 c23 : ℚ)
    (h12 : p.conv1_to_2 = some c12) (h23 : p.conv2_to_3 = some c23)
    (hc12 : 1 ≤ c12) (hc23 : 1 ≤ c23) :
    pricePerPCSFromUOM1 p = p.price / (c12 * c23) ∧
    pricePerPCSFromUOM1 p * unitsPer p Uom.u2 = (p.price / (c12 * c23)) * c23 ∧
    pricePerPCSFromUOM1 p * unitsPer p Uom.u1 = p.price ∧
    pricePCS p = pricePerPCSFromUOM1 p := by
  have e12 := effC12_of_some p c12 h12 hc12
  have e23 := effC23_of_some p c23 h23 hc23
  have hdiv := pricePerPCSFromUOM1_eq_div p
  rw [e12, e23] at hdiv
  have hpos : 0 < c12 * c23 := by nlinarith
  have hne : c12 * c23 ≠ 0 := ne_of_gt hpos
  refine ⟨hdiv, ?_, ?_, pricePCS_eq p⟩
  · rw [hdiv]
    simp [unitsPer, e23]
  · rw [hdiv]
    simp only [unitsPer, e12, e23]
    exact div_mul_cancel₀ p.price hne

/-- C1 witness: the worked example of the spec — price 60000, c12 = 6,
c23 = 6 gives per-piece price 60000/36, UOM2 price (60000/36)*6 = 10000,
and UOM1 price recovering 60000. -/
theorem C1_uom_price_roundtrip_witness :
    pricePerPCSFromUOM1 exampleProduct = 60000 / (6 * 6) ∧
    pricePerPCSFromUOM1 exampleProduct * unitsPer exampleProduct Uom.u2
      = (60000 / (6 * 6)) * 6 ∧
    pricePerPCSFromUOM1 exampleProduct * unitsPer exampleProduct Uom.u1
      = 60000 ∧
    pricePCS exampleProduct = pricePerPCSFromUOM1 exampleProduct :=
  C1_uom_price_roundtrip exampleProduct 6 6 rfl rfl (by norm_num) (by norm_num)

/-- C8: the effective conversion factors are clamped to at least 1 for
every input product (null, zero or negative factors included), so
unitsPer is at least 1, the denominator c12*c23 is positive, and both
per-piece price computations always take the division branch — the
zero-denominator fallback is unreachable. -/
theorem C8_clamped_factors (p : Product) (uom : Uom) :
    1 ≤ effC12 p ∧ 1 ≤ effC23 p ∧ 1 ≤ unitsPer p uom ∧
    0 < effC12 p * effC23 p ∧
    pricePerPCSFromUOM1 p = p.price / (effC12 p * effC23 p) ∧
    pricePCS p = p.price / (effC12 p * effC23 p) :=
  ⟨one_le_effC12 p, one_le_effC23 p, one_le_unitsPer p uom, perPCS_pos p,
   pricePerPCSFromUOM1_eq_div p,
   by rw [pricePCS_eq]; exact pricePerPCSFromUOM1_eq_div p⟩

/-- C4: changing the UOM level of a line whose product resolves keeps
the piece-equivalent quantity (qty times units of the level) exactly
equal — hence within any floating-point tolerance — and sets the unit
price to the per-piece price times the units of the new level. -/
theorem C4_changeUom_preserves_pieces (byId : Nat → Option Product)
    (u : Uom) (r : OrderRow) (pid : Nat) (p : Product)
    (hpid : r.product_id = some pid) (hpid0 : pid ≠ 0)
    (hby : byId pid = some p) :
    (changeUomRow byId r.id u r).qty * unitsPer p u
      = r.qty * unitsPer p r.uom ∧
    (changeUomRow byId r.id u r).price
      = pricePerPCSFromUOM1 p * unitsPer p u ∧
    (changeUomRow byId r.id u r).uom = u := by
  have hguard : ¬(r.id ≠ r.id ∨ jsFalsyId r.product_id = true) := by
    rw [hpid]
    simp [jsFalsyId, hpid0]
  unfold changeUomRow
  rw [if_neg hguard]
  simp only [hpid, hby]
  refine ⟨div_mul_cancel₀ _ (unitsPer_ne_zero p u), ?_, ?_⟩ <;> trivial

/-- C4 witness: switching the 5-piece row of the small product to UOM1
preserves the piece-equivalent quantity and prices the line at the
per-piece price times the units of UOM1. -/
theorem C4_changeUom_preserves_pieces_witness :
    (changeUomRow smallById smallRow.id Uom.u1 smallRow).qty
        * unitsPer smallProduct Uom.u1
      = smallRow.qty * unitsPer smallProduct smallRow.uom ∧
    (changeUomRow smallById smallRow.id Uom.u1 smallRow).price
      = pricePerPCSFromUOM1 smallProduct * unitsPer smallProduct Uom.u1 ∧
    (changeUomRow smallById smallRow.id Uom.u1 smallRow).uom = Uom.u1 :=
  C4_changeUom_preserves_pieces smallById Uom.u1 smallRow 7 smallProduct
    rfl (by decide) rfl

/-- C9: when the stored price of every targeted row agrees with the
per-piece price times the units of its level (the invariant the UI
maintains), changeUom leaves each line total exactly unchanged in exact
arithmetic, and therefore the order subtotal is invariant. -/
theorem C9_changeUom_subtotal_invariant (byId : Nat → Option Product)
    (rowId : String) (u : Uom) (rows : List OrderRow)
    (hcons : ∀ r ∈ rows, rowConsistent byId r) :
    subtotal (changeUom byId rowId u rows) = subtotal rows ∧
    ∀ r ∈ rows, lineTotal (changeUomRow byId rowId u r) = lineTotal r := by
  refine ⟨?_, fun r hr => lineTotal_changeUomRow byId rowId u r (hcons r hr)⟩
  exact subtotal_map rows _
    (fun r hr => lineTotal_changeUomRow byId rowId u r (hcons r hr))

/-- C9 witness: the one-row order of the small product keeps its
subtotal when the row is switched to UOM1. -/
theorem C9_changeUom_subtotal_invariant_witness :
    subtotal (changeUom smallById "a" Uom.u1 [smallRow])
      = subtotal [smallRow] :=
  (C9_changeUom_subtotal_invariant smallById "a" Uom.u1 [smallRow]
    (by
      intro r hr
      have hr0 : r = smallRow := by simpa using hr
      subst hr0
      intro pid p hpid hby
      have h7 : pid = 7 := by
        have h := hpid.symm.trans (show smallRow.product_id = some 7 from rfl)
        exact Option.some.inj h
      subst h7
      have hp : p = smallProduct :=
        (Option.some.inj
          ((show smallById 7 = some smallProduct from rfl).symm.trans hby)).symm
      subst hp
      show smallRow.price
          = pricePerPCSFromUOM1 smallProduct * unitsPer smallProduct smallRow.uom
      norm_num [smallRow, smallProduct, pricePerPCSFromUOM1, effC12, effC23,
        jsOr1, unitsPer])).1

/-- C2 counterexample: for the database holding one order in status new,
a bulk move to shipped creates a history row whose from_status is null,
not the prior status new — the claim that every admin-initiated status
change records the prior status as from_status fails on bulkMove. -/
theorem C2_bulkMove_from_status_counterexample :
    statusOf exampleStatusDB 1 = some Status.new ∧
    (bulkMove exampleStatusDB [1] Status.shipped).hist
      = [{ order_id := 1, from_status := none, to_status := Status.shipped }] ∧
    ¬ ∃ h ∈ (bulkMove exampleStatusDB [1] Status.shipped).hist,
        h.from_status = some Status.new := by
  decide

/-- C2 amended: changeStatus and cancelOrder append one history row
recording the prior status as from_status and the target as to_status;
bulkMove appends one row per selected order with the correct to_status
but with from_status null rather than the prior status. -/
theorem C2_history_amended (db : StatusDB) (id : Nat) (toSt st : Status)
    (ids : List Nat) (hst : statusOf db id = some st) (hids : ids ≠ []) :
    (changeStatus db id toSt).hist
      = db.hist ++
          [{ order_id := id, from_status := some st, to_status := toSt }] ∧
    (cancelOrder db id).hist
      = db.hist ++
          [{ order_id := id, from_status := some st,
             to_status := Status.cancelled }] ∧
    (bulkMove db ids toSt).hist
      = db.hist ++ ids.map (fun i =>
          { order_id := i, from_status := none, to_status := toSt }) := by
  have hne : ids.isEmpty = false := by
    cases ids with
    | nil => exact absurd rfl hids
    | cons a l => rfl
  refine ⟨?_, ?_, ?_⟩
  · simp [changeStatus, hst]
  · simp [cancelOrder, hst]
  · simp [bulkMove, hne]

/-- C2 witness: on the one-order database, the three operations produce
exactly the history rows the amended claim describes. -/
theorem C2_history_amended_witness :
    (changeStatus exampleStatusDB 1 Status.shipped).hist
      = exampleStatusDB.hist ++
          [{ order_id := 1, from_status := some Status.new,
             to_status := Status.shipped }] ∧
    (cancelOrder exampleStatusDB 1).hist
      = exampleStatusDB.hist ++
          [{ order_id := 1, from_status := some Status.new,
             to_status := Status.cancelled }] ∧
    (bulkMove exampleStatusDB [1] Status.shipped).hist
      = exampleStatusDB.hist ++ [1].map (fun i =>
          { order_id := i, from_status := none,
            to_status := Status.shipped }) :=
  C2_history_amended exampleStatusDB 1 Status.shipped Status.new [1]
    (by decide) (by decide)

/-- C3: whenever saveOrder reports a successful save, the stored total
equals the sum over the inserted line items of quantity times unit
price; and the header update written by saveEdits sets total to the sum
over the upserted item rows of quantity times unit price. -/
theorem C3_saved_total_eq_sum (byId : Nat → Option Product)
    (customerId : Option Nat) (rows : List OrderRow) (notes : String)
    (paymentTerms : Option String) (uid : Option String)
    (orderInsertResult : Option Nat) (itemsInsertOk : Bool)
    (hd : OrderInsert) (items : List ItemInsert) (ditems : List DetailItem)
    (h : (saveOrder byId customerId rows notes paymentTerms uid
            orderInsertResult itemsInsertOk).saved = some (hd, items)) :
    hd.total = sumItems items ∧
    (saveEditsOrderUpdate ditems).total
      = sumEditItems (saveEditsUpserts ditems) := by
  obtain ⟨hhd, oid, _, hitems⟩ := saveOrder_saved_eq byId customerId rows
    notes paymentTerms uid orderInsertResult itemsInsertOk hd items h
  constructor
  · subst hhd
    show subtotal rows = sumItems items
    rw [hitems, sumItems_map_itemOf]
  · rw [sumEditItems_upserts]
    rfl

/-- C3 witness: a concrete successful save of one 5-piece line at price
6 stores total 30 = 5 * 6, and a concrete saveEdits writes a total
matching its upserted rows. -/
theorem C3_saved_total_eq_sum_witness :
    savedHeader.total = sumItems savedItems ∧
    (saveEditsOrderUpdate editedDetail).total
      = sumEditItems (saveEditsUpserts editedDetail) :=
  C3_saved_total_eq_sum smallById (some 1) [smallRow] "" none (some "u")
    (some 5) true savedHeader savedItems editedDetail
    (by
      norm_num [saveOrder, jsFalsyId, smallRow, smallById, smallProduct,
        savedHeader, savedItems, subtotal, itemOf, unitsPer, effC12, effC23,
        jsOr1])

/-- C5: under the union of the order select policies, a caller with no
admin profile row can read an order exactly when they are recorded as
its creator, and a caller with an admin profile row can read every
order. -/
theorem C5_orders_read_policy (profiles : List ProfileRow) (uid : String)
    (o : OrderAuthRow) :
    ((∀ p ∈ profiles, p.id = uid → p.role ≠ Role.admin) →
      (ordersSelectAllowed profiles uid o = true ↔
        o.created_by = some uid)) ∧
    (∀ p ∈ profiles, p.id = uid → p.role = Role.admin →
      ordersSelectAllowed profiles uid o = true) := by
  constructor
  · intro hna
    unfold ordersSelectAllowed isAdminUid
    constructor
    · intro h
      simp only [Bool.or_eq_true, decide_eq_true_eq, List.any_eq_true] at h
      rcases h with h1 | ⟨p, hp, hdec⟩
      · exact h1
      · exact absurd hdec.2 (hna p hp hdec.1)
    · intro h
      simp only [Bool.or_eq_true, decide_eq_true_eq]
      exact Or.inl h
  · intro p hp hid hrole
    unfold ordersSelectAllowed isAdminUid
    simp only [Bool.or_eq_true, decide_eq_true_eq, List.any_eq_true]
    exact Or.inr ⟨p, hp, hid, hrole⟩

/-- C5 witness: a sales-role caller reads their own order (and the iff
pins readability to creatorship), and an admin-role caller reads an
order created by someone else. -/
theorem C5_orders_read_policy_witness :
    (ordersSelectAllowed [{ id := "s1", role := Role.sales }] "s1"
        { created_by := some "s1" } = true ↔
      ({ created_by := some "s1" } : OrderAuthRow).created_by = some "s1") ∧
    ordersSelectAllowed [{ id := "a1", role := Role.admin }] "a1"
      { created_by := some "other" } = true :=
  ⟨(C5_orders_read_policy [{ id := "s1", role := Role.sales }] "s1"
      { created_by := some "s1" }).1 (by decide),
   (C5_orders_read_policy [{ id := "a1", role := Role.admin }] "a1"
      { created_by := some "other" }).2
     { id := "a1", role := Role.admin } (by simp) rfl rfl⟩

/-- C6: when no customer is selected, the row list is empty, or some row
has a null product id, saveOrder attempts no backend write — its trace
is alerts only — and leaves the rows, the selected customer and the
saved result untouched. -/
theorem C6_saveOrder_no_write (byId : Nat → Option Product)
    (customerId : Option Nat) (rows : List OrderRow) (notes : String)
    (paymentTerms : Option String) (uid : Option String)
    (orderInsertResult : Option Nat) (itemsInsertOk : Bool)
    (h : customerId = none ∨ rows = [] ∨ ∃ r ∈ rows, r.product_id = none) :
    alertsOnly (saveOrder byId customerId rows notes paymentTerms uid
        orderInsertResult itemsInsertOk).trace = true ∧
    (saveOrder byId customerId rows notes paymentTerms uid
        orderInsertResult itemsInsertOk).rowsAfter = rows ∧
    (saveOrder byId customerId rows notes paymentTerms uid
        orderInsertResult itemsInsertOk).customerAfter = customerId ∧
    (saveOrder byId customerId rows notes paymentTerms uid
        orderInsertResult itemsInsertOk).saved = none := by
  rcases h with h | h | h
  · subst h
    exact ⟨rfl, rfl, rfl, rfl⟩
  · subst h
    by_cases hc : jsFalsyId customerId = true
    · simp only [saveOrder, if_pos hc]
      refine ⟨?_, ?_, ?_, ?_⟩ <;> first | rfl | trivial
    · simp only [saveOrder, if_neg hc, List.length_nil, if_pos rfl]
      refine ⟨?_, ?_, ?_, ?_⟩ <;> first | rfl | trivial
  · obtain ⟨r, hr, hprod⟩ := h
    have hany : (rows.any fun x => jsFalsyId x.product_id) = true :=
      List.any_eq_true.mpr ⟨r, hr, by rw [hprod]; rfl⟩
    by_cases hc : jsFalsyId customerId = true
    · simp only [saveOrder, if_pos hc]
      refine ⟨?_, ?_, ?_, ?_⟩ <;> first | rfl | trivial
    · by_cases hlen : rows.length = 0
      · simp only [saveOrder, if_neg hc, if_pos hlen]
        refine ⟨?_, ?_, ?_, ?_⟩ <;> first | rfl | trivial
      · simp only [saveOrder, if_neg hc, if_neg hlen, if_pos hany]
        refine ⟨?_, ?_, ?_, ?_⟩ <;> first | rfl | trivial

/-- C6 witness: with no customer selected, a save attempt over one valid
row alerts only and changes nothing. -/
theorem C6_saveOrder_no_write_witness :
    alertsOnly (saveOrder smallById none [smallRow] "" none (some "u")
        (some 5) true).trace = true ∧
    (saveOrder smallById none [smallRow] "" none (some "u")
        (some 5) true).rowsAfter = [smallRow] ∧
    (saveOrder smallById none [smallRow] "" none (some "u")
        (some 5) true).customerAfter = none ∧
    (saveOrder smallById none [smallRow] "" none (some "u")
        (some 5) true).saved = none :=
  C6_saveOrder_no_write smallById none [smallRow] "" none (some "u")
    (some 5) true (Or.inl rfl)

/-- C7: when the validations pass, the header insert succeeds with some
id, and the line-item insert then fails, saveOrder issues a delete of
the just-created header, and no inserted order header survives the
trace without successfully inserted line items. -/
theorem C7_rollback_on_item_failure (byId : Nat → Option Product)
    (customerId : Option Nat) (rows : List OrderRow) (notes : String)
    (paymentTerms : Option String) (u : String) (oid : Nat)
    (hc : jsFalsyId customerId = false)
    (hlen : ¬ rows.length = 0)
    (hres : (rows.any fun r => jsFalsyId r.product_id) = false) :
    Op.deleteOrder oid ∈ (saveOrder byId customerId rows notes paymentTerms
        (some u) (some oid) false).trace ∧
    liveHeaders (saveOrder byId customerId rows notes paymentTerms
        (some u) (some oid) false).trace = [] := by
  have hc' : ¬ jsFalsyId customerId = true := by simp [hc]
  have hres' : ¬ (rows.any fun r => jsFalsyId r.product_id) = true := by
    simp [hres]
  simp only [saveOrder, if_neg hc', if_neg hlen, if_neg hres']
  refine ⟨by simp, ?_⟩
  simp [liveHeaders, List.filter]

/-- C7 witness: a concrete save whose item insert fails deletes header 5
and leaves no live header in the trace. -/
theorem C7_rollback_on_item_failure_witness :
    Op.deleteOrder 5 ∈ (saveOrder smallById (some 1) [smallRow] "" none
        (some "u") (some 5) false).trace ∧
    liveHeaders (saveOrder smallById (some 1) [smallRow] "" none
        (some "u") (some 5) false).trace = [] :=
  C7_rollback_on_item_failure smallById (some 1) [smallRow] "" none "u" 5
    rfl (by simp) rfl

/-- C10: every header saveOrder successfully writes carries status new,
discount 0, tax 0, subtotal equal to the client-computed subtotal of
the rows, and total equal to that subtotal. -/
theorem C10_saveOrder_header_defaults (byId : Nat → Option Product)
    (customerId : Option Nat) (rows : List OrderRow) (notes : String)
    (paymentTerms : Option String) (uid : Option String)
    (orderInsertResult : Option Nat) (itemsInsertOk : Bool)
    (hd : OrderInsert) (items : List ItemInsert)
    (h : (saveOrder byId customerId rows notes paymentTerms uid
            orderInsertResult itemsInsertOk).saved = some (hd, items)) :
    hd.status = Status.new ∧ hd.discount = 0 ∧ hd.tax = 0 ∧
    hd.subtotal = subtotal rows ∧ hd.total = hd.subtotal := by
  obtain ⟨hhd, _, _, _⟩ := saveOrder_saved_eq byId customerId rows notes
    paymentTerms uid orderInsertResult itemsInsertOk hd items h
  subst hhd
  exact ⟨rfl, rfl, rfl, rfl, rfl⟩

/-- C10 witness: the concrete successful save writes status new,
discount 0, tax 0, and total equal to the subtotal. -/
theorem C10_saveOrder_header_defaults_witness :
    savedHeader.status = Status.new ∧ savedHeader.discount = 0 ∧
    savedHeader.tax = 0 ∧ savedHeader.subtotal = subtotal [smallRow] ∧
    savedHeader.total = savedHeader.subtotal :=
  C10_saveOrder_header_defaults smallById (some 1) [smallRow] "" none
    (some "u") (some 5) true savedHeader savedItems
    (by
      norm_num [saveOrder, jsFalsyId, smallRow, smallById, smallProduct,
        savedHeader, savedItems, subtotal, itemOf, unitsPer, effC12, effC23,
        jsOr1])

end FieldOrders
